import Mathlib

/-!
# Verification of the recent-files aggregation engine

Shallow embedding of `src/plugin.js` (Thymer "Recent Files" plugin).

Modelling conventions:
* JavaScript `Date` values are represented by their `getTime()` value, an
  `Int` number of milliseconds since the epoch.  The code only ever compares
  timestamps through `getTime()` and subtracts them, so this is faithful.
* `record.date('updated_at')` may return a date or a falsy value; it is
  modelled as `Option Int`.
* A host call that can reject (`this.data.getAllCollections()`,
  `collection.getAllRecords()`) is modelled as an `Except String` value
  stored in the corresponding structure: the string is the thrown error.
* `Array.prototype.sort` with the comparator
  `(a, b) => b.updatedAt.getTime() - a.updatedAt.getTime()` is (per the
  ECMAScript specification, which requires sort stability) the stable sort
  by non-increasing `updatedAt`.  It is embedded as the stable insertion
  sort `sortDesc`, which computes exactly that list.
* `Array.prototype.slice(0, n)` is embedded as `jsSlice0`, including the
  ECMAScript handling of a negative end index (counted from the end).
* `date.toLocaleDateString(...)` is locale- and host-dependent; it is kept
  abstract as a function parameter `localeDateString` of the formatter.
-/

namespace RecentFiles

/-- A `DocumentHandle`: one record of a collection, as the plugin reads it
(`record.guid`, `record.getName()`, `record.date('updated_at')`). -/
structure Record where
  guid : String
  name : String
  updatedAt : Option Int
deriving DecidableEq

/-- A `CollectionHandle` as the plugin reads it: `collection.getName()`,
`collection.getConfiguration().icon` and the (possibly failing) result of
`collection.getAllRecords()`. -/
structure Collection where
  name : String
  icon : Option String
  records : Except String (List Record)

/-- The host source: the (possibly failing) result of
`this.data.getAllCollections()`. -/
structure Source where
  collections : Except String (List Collection)

/-- One element of the `files` array built by `getRecentFiles`
(src/plugin.js lines 234-240). -/
structure FileEntry where
  recordGuid : String
  collectionName : String
  collectionIcon : Option String
  title : String
  updatedAt : Int
deriving DecidableEq

/-- The entries pushed for one collection: records are scanned in order and
a record is pushed exactly when `record.date('updated_at')` is defined
(src/plugin.js lines 231-242). -/
def recordEntries (c : Collection) (rs : List Record) : List FileEntry :=
  rs.filterMap fun r =>
    r.updatedAt.map fun t =>
      { recordGuid := r.guid
        collectionName := c.name
        collectionIcon := c.icon
        title := r.name
        updatedAt := t }

/-- The `files` array after the collection loop of `getRecentFiles`
(src/plugin.js lines 220-243): collections are visited in order, and a
failing `getAllRecords()` rejects the whole computation. -/
def gatherFiles : List Collection → Except String (List FileEntry)
  | [] => .ok []
  | c :: cs =>
    match c.records with
    | .error e => .error e
    | .ok rs =>
      match gatherFiles cs with
      | .error e => .error e
      | .ok rest => .ok (recordEntries c rs ++ rest)

/-- One step of the stable insertion sort: insert `x` before the first
element whose `updatedAt` is not larger, so that an element inserted from
further left in the original array stays before elements with an equal
timestamp. -/
def insertDesc (x : FileEntry) : List FileEntry → List FileEntry
  | [] => [x]
  | y :: ys =>
    if y.updatedAt ≤ x.updatedAt then x :: y :: ys else y :: insertDesc x ys

/-- The stable sort by non-increasing `updatedAt`: the embedding of
`files.sort((a, b) => b.updatedAt.getTime() - a.updatedAt.getTime())`
(src/plugin.js line 246; ECMAScript sort is stable). -/
def sortDesc : List FileEntry → List FileEntry
  | [] => []
  | x :: xs => insertDesc x (sortDesc xs)

/-- ECMAScript `array.slice(0, n)`: for `0 ≤ n` the first `n` elements;
a negative `n` counts from the end (`max (length + n) 0` elements). -/
def jsSlice0 (n : Int) (l : List FileEntry) : List FileEntry :=
  if n < 0 then l.take (l.length - n.natAbs) else l.take n.toNat

/-- `getRecentFiles(maxFiles)` (src/plugin.js lines 219-250): gather the
entries of every collection, sort by `updatedAt` descending (stable), and
return `files.slice(0, maxFiles)`.  Any host failure rejects the call. -/
def getRecentFiles (src : Source) (maxFiles : Int) :
    Except String (List FileEntry) :=
  match src.collections with
  | .error e => .error e
  | .ok cols =>
    match gatherFiles cols with
    | .error e => .error e
    | .ok files => .ok (jsSlice0 maxFiles (sortDesc files))

/-- `formatRelativeTime(date)` (src/plugin.js lines 252-279), with `now`
made an explicit argument and both instants in milliseconds.
`Math.floor` of a quotient of integers is `Int.fdiv`.  The final branch,
`date.toLocaleDateString(...)`, is host- and locale-dependent and is kept
abstract as the parameter `localeDateString` applied to the date and to
`now` (the code reads both, via `date.getFullYear() !== now.getFullYear()`). -/
def formatRelativeTime (localeDateString : Int → Int → String)
    (nowMs dateMs : Int) : String :=
  let diffMs := nowMs - dateMs
  let diffSecs := Int.fdiv diffMs 1000
  let diffMins := Int.fdiv diffSecs 60
  let diffHours := Int.fdiv diffMins 60
  let diffDays := Int.fdiv diffHours 24
  if diffSecs < 60 then "just now"
  else if diffMins < 60 then s!"{diffMins}m ago"
  else if diffHours < 24 then s!"{diffHours}h ago"
  else if diffDays < 7 then s!"{diffDays}d ago"
  else if diffDays < 30 then
    let weeks := Int.fdiv diffDays 7
    s!"{weeks}w ago"
  else localeDateString dateMs nowMs

/-- JavaScript `value || default` for an optional string (`undefined`,
`null` and the empty string are falsy). -/
def orDefault (v : Option String) (d : String) : String :=
  match v with
  | none => d
  | some s => if s = "" then d else s

/-- One rendered list row (src/plugin.js lines 117-153): the icon
(`file.collectionIcon || 'ti-file'`), the title
(`file.title || 'Untitled'`), the collection name span — added only when
`showCollection` holds (lines 140-149) — and the relative-time span. -/
structure ViewItem where
  iconId : String
  title : String
  collectionLabel : Option String
  ageLabel : String
deriving DecidableEq

/-- The presentation step of `showRecentFilesModal` (src/plugin.js lines
113-175): each file, in order, becomes one rendered row. -/
def present (localeDateString : Int → Int → String) (nowMs : Int)
    (showCollection : Bool) (files : List FileEntry) : List ViewItem :=
  files.map fun f =>
    { iconId := orDefault f.collectionIcon "ti-file"
      title := if f.title = "" then "Untitled" else f.title
      collectionLabel := if showCollection then some f.collectionName else none
      ageLabel := formatRelativeTime localeDateString nowMs f.updatedAt }

/-- The `custom` block of the plugin configuration. -/
structure CustomConfig where
  maxFiles : Option Int
  showCollection : Option Bool
deriving DecidableEq

/-- The plugin configuration object (`this.getConfiguration()`); `custom`
may be absent. -/
structure Config where
  custom : Option CustomConfig
deriving DecidableEq

/-- `config.custom?.maxFiles || 15` (src/plugin.js line 37): a missing
`custom` block, a missing/null `maxFiles` and the falsy value `0` all fall
back to the default `15`. -/
def effectiveMaxFiles (config : Config) : Int :=
  match config.custom with
  | none => 15
  | some c =>
    match c.maxFiles with
    | none => 15
    | some n => if n = 0 then 15 else n

/-- The number of documents across all collections that have a defined
`modifiedAt` (a successfully listed collection contributes the count of
its records with a defined `updated_at`). -/
def rankedCount (cols : List Collection) : Nat :=
  (cols.map fun c =>
    match c.records with
    | .error _ => 0
    | .ok rs => rs.countP fun r => r.updatedAt.isSome).sum

/-! ### Lemmas about the stable sort -/

theorem mem_insertDesc {a x : FileEntry} {l : List FileEntry} :
    a ∈ insertDesc x l ↔ a = x ∨ a ∈ l := by
  induction l with
  | nil => simp [insertDesc]
  | cons y ys ih =>
    by_cases h : y.updatedAt ≤ x.updatedAt
    · simp [insertDesc, h]
    · simp [insertDesc, h, ih]
      tauto

theorem pairwise_insertDesc {x : FileEntry} {l : List FileEntry}
    (hl : l.Pairwise (fun a b => b.updatedAt ≤ a.updatedAt)) :
    (insertDesc x l).Pairwise (fun a b => b.updatedAt ≤ a.updatedAt) := by
  induction l with
  | nil => simp [insertDesc]
  | cons y ys ih =>
    rcases List.pairwise_cons.mp hl with ⟨hy, hys⟩
    by_cases h : y.updatedAt ≤ x.updatedAt
    · rw [insertDesc, if_pos h]
      refine List.pairwise_cons.mpr ⟨?_, hl⟩
      intro b hb
      rcases List.mem_cons.mp hb with rfl | hb
      · exact h
      · exact le_trans (hy b hb) h
    · rw [insertDesc, if_neg h]
      refine List.pairwise_cons.mpr ⟨?_, ih hys⟩
      intro b hb
      rcases mem_insertDesc.mp hb with rfl | hb
      · exact le_of_lt (lt_of_not_le h)
      · exact hy b hb

theorem sortDesc_pairwise (l : List FileEntry) :
    (sortDesc l).Pairwise (fun a b => b.updatedAt ≤ a.updatedAt) := by
  induction l with
  | nil => simp [sortDesc]
  | cons x xs ih => exact pairwise_insertDesc ih

theorem mem_sortDesc {a : FileEntry} {l : List FileEntry} :
    a ∈ sortDesc l ↔ a ∈ l := by
  induction l with
  | nil => simp [sortDesc]
  | cons x xs ih => simp [sortDesc, mem_insertDesc, ih]

theorem length_insertDesc (x : FileEntry) (l : List FileEntry) :
    (insertDesc x l).length = l.length + 1 := by
  induction l with
  | nil => simp [insertDesc]
  | cons y ys ih =>
    by_cases h : y.updatedAt ≤ x.updatedAt
    · simp [insertDesc, h]
    · simp [insertDesc, h, ih]

theorem length_sortDesc (l : List FileEntry) :
    (sortDesc l).length = l.length := by
  induction l with
  | nil => rfl
  | cons x xs ih => simp [sortDesc, length_insertDesc, ih]

theorem filter_insertDesc (x : FileEntry) (l : List FileEntry) (t : Int) :
    (insertDesc x l).filter (fun y => y.updatedAt == t) =
      if x.updatedAt = t then x :: l.filter (fun y => y.updatedAt == t)
      else l.filter (fun y => y.updatedAt == t) := by
  induction l with
  | nil =>
    by_cases hx : x.updatedAt = t <;> simp [insertDesc, hx]
  | cons y ys ih =>
    by_cases h : y.updatedAt ≤ x.updatedAt
    · rw [insertDesc, if_pos h]
      by_cases hx : x.updatedAt = t <;> simp [hx, List.filter_cons]
    · rw [insertDesc, if_neg h]
      by_cases hx : x.updatedAt = t
      · have hy : ¬ y.updatedAt = t := by
          intro hyt
          exact h (le_of_eq (hyt.trans hx.symm))
        simp [List.filter_cons, hx, hy, ih]
      · by_cases hy : y.updatedAt = t <;>
          simp [List.filter_cons, hx, hy, ih]

/-- Stability of the sort: the items carrying one fixed timestamp appear in
the sorted list exactly in their original relative order. -/
theorem filter_sortDesc (l : List FileEntry) (t : Int) :
    (sortDesc l).filter (fun y => y.updatedAt == t) =
      l.filter (fun y => y.updatedAt == t) := by
  induction l with
  | nil => rfl
  | cons x xs ih =>
    rw [sortDesc, filter_insertDesc]
    by_cases hx : x.updatedAt = t <;> simp [hx, List.filter_cons, ih]

theorem exists_filter_take (k : Nat) (l : List FileEntry)
    (p : FileEntry → Bool) :
    ∃ s, (l.take k).filter p ++ s = l.filter p := by
  induction l generalizing k with
  | nil => exact ⟨[], by simp⟩
  | cons x xs ih =>
    cases k with
    | zero => exact ⟨(x :: xs).filter p, by simp⟩
    | succ k =>
      rcases ih k with ⟨s, hs⟩
      refine ⟨s, ?_⟩
      by_cases hp : p x <;> simp [List.filter_cons, hp, hs]

theorem jsSlice0_eq_take (n : Int) (l : List FileEntry) :
    ∃ k, jsSlice0 n l = l.take k := by
  unfold jsSlice0
  by_cases h : n < 0
  · exact ⟨l.length - n.natAbs, by rw [if_pos h]⟩
  · exact ⟨n.toNat, by rw [if_neg h]⟩

/-! ### Lemmas about gathering -/

theorem length_recordEntries (c : Collection) (rs : List Record) :
    (recordEntries c rs).length = rs.countP (fun r => r.updatedAt.isSome) := by
  induction rs with
  | nil => rfl
  | cons r rs ih =>
    cases hu : r.updatedAt <;>
      simp [recordEntries, List.filterMap_cons, hu, List.countP_cons,
        recordEntries] at ih ⊢ <;> omega

theorem gatherFiles_length {cols : List Collection} {all : List FileEntry}
    (h : gatherFiles cols = .ok all) : all.length = rankedCount cols := by
  induction cols generalizing all with
  | nil =>
    rw [gatherFiles] at h
    cases h
    rfl
  | cons c cs ih =>
    rw [gatherFiles] at h
    cases hr : c.records with
    | error e => rw [hr] at h; exact absurd h (by simp)
    | ok rs =>
      rw [hr] at h
      cases hg : gatherFiles cs with
      | error e => rw [hg] at h; exact absurd h (by simp)
      | ok rest =>
        rw [hg] at h
        have hall : all = recordEntries c rs ++ rest := by
          cases h; rfl
        rw [hall]
        simp [rankedCount, hr, length_recordEntries, ih hg, rankedCount]

theorem mem_recordEntries {c : Collection} {rs : List Record}
    {f : FileEntry} (h : f ∈ recordEntries c rs) :
    ∃ r ∈ rs, r.updatedAt = some f.updatedAt ∧ r.guid = f.recordGuid ∧
      r.name = f.title := by
  rcases List.mem_filterMap.mp h with ⟨r, hr, hmap⟩
  cases hu : r.updatedAt with
  | none => rw [hu] at hmap; exact absurd hmap (by simp)
  | some t =>
    rw [hu] at hmap
    cases hmap
    exact ⟨r, hr, by simp [hu], rfl, rfl⟩

theorem mem_gatherFiles {cols : List Collection} {all : List FileEntry}
    {f : FileEntry} (h : gatherFiles cols = .ok all) (hf : f ∈ all) :
    ∃ c ∈ cols, ∃ rs, c.records = .ok rs ∧
      ∃ r ∈ rs, r.updatedAt = some f.updatedAt ∧ r.guid = f.recordGuid ∧
        r.name = f.title := by
  induction cols generalizing all with
  | nil =>
    rw [gatherFiles] at h
    cases h
    exact absurd hf (by simp)
  | cons c cs ih =>
    rw [gatherFiles] at h
    cases hr : c.records with
    | error e => rw [hr] at h; exact absurd h (by simp)
    | ok rs =>
      rw [hr] at h
      cases hg : gatherFiles cs with
      | error e => rw [hg] at h; exact absurd h (by simp)
      | ok rest =>
        rw [hg] at h
        have hall : all = recordEntries c rs ++ rest := by
          cases h; rfl
        rw [hall] at hf
        rcases List.mem_append.mp hf with hf | hf
        · rcases mem_recordEntries hf with ⟨r, hrmem, hru, hrg, hrn⟩
          exact ⟨c, by simp, rs, hr, r, hrmem, hru, hrg, hrn⟩
        · rcases ih hg hf with ⟨c', hc', rest'⟩
          exact ⟨c', by simp [hc'], rest'⟩

theorem gatherFiles_error {cols : List Collection} {c : Collection}
    (hc : c ∈ cols) {e : String} (he : c.records = .error e) :
    ∃ e', gatherFiles cols = .error e' := by
  induction cols with
  | nil => exact absurd hc (by simp)
  | cons c₀ cs ih =>
    rcases List.mem_cons.mp hc with rfl | hc
    · exact ⟨e, by rw [gatherFiles, he]⟩
    · rw [gatherFiles]
      cases hr : c₀.records with
      | error e₀ => exact ⟨e₀, rfl⟩
      | ok rs =>
        rcases ih hc with ⟨e', he'⟩
        exact ⟨e', by rw [he']⟩

/-! ### Lemmas about the formatter -/

theorem fdiv_1000 (a : Int) : Int.fdiv a 1000 = a / 1000 :=
  Int.fdiv_eq_ediv _ (by norm_num)

theorem fdiv_60 (a : Int) : Int.fdiv a 60 = a / 60 :=
  Int.fdiv_eq_ediv _ (by norm_num)

theorem fdiv_24 (a : Int) : Int.fdiv a 24 = a / 24 :=
  Int.fdiv_eq_ediv _ (by norm_num)

theorem fdiv_7 (a : Int) : Int.fdiv a 7 = a / 7 :=
  Int.fdiv_eq_ediv _ (by norm_num)

theorem formatRelativeTime_justNow (f : Int → Int → String)
    {nowMs dateMs : Int} (h : nowMs - dateMs < 60000) :
    formatRelativeTime f nowMs dateMs = "just now" := by
  have c1 : Int.fdiv (nowMs - dateMs) 1000 < 60 := by
    rw [fdiv_1000]; omega
  simp only [formatRelativeTime]
  rw [if_pos c1]

theorem formatRelativeTime_minutes (f : Int → Int → String)
    {nowMs dateMs : Int} (h0 : 60000 ≤ nowMs - dateMs)
    (h1 : nowMs - dateMs < 3600000) :
    formatRelativeTime f nowMs dateMs =
      toString ((nowMs - dateMs) / 60000) ++ "m ago" := by
  have e2 : Int.fdiv ((nowMs - dateMs) / 1000) 60 = (nowMs - dateMs) / 60000 := by
    rw [fdiv_60]; omega
  have c1 : ¬ Int.fdiv (nowMs - dateMs) 1000 < 60 := by
    rw [fdiv_1000]; omega
  have c2 : Int.fdiv (Int.fdiv (nowMs - dateMs) 1000) 60 < 60 := by
    rw [fdiv_1000, e2]; omega
  simp only [formatRelativeTime]
  rw [if_neg c1, if_pos c2, fdiv_1000, e2]
  rfl

theorem formatRelativeTime_hours (f : Int → Int → String)
    {nowMs dateMs : Int} (h0 : 3600000 ≤ nowMs - dateMs)
    (h1 : nowMs - dateMs < 86400000) :
    formatRelativeTime f nowMs dateMs =
      toString ((nowMs - dateMs) / 3600000) ++ "h ago" := by
  have e2 : Int.fdiv ((nowMs - dateMs) / 1000) 60 = (nowMs - dateMs) / 60000 := by
    rw [fdiv_60]; omega
  have e3 : Int.fdiv ((nowMs - dateMs) / 60000) 60 = (nowMs - dateMs) / 3600000 := by
    rw [fdiv_60]; omega
  have c1 : ¬ Int.fdiv (nowMs - dateMs) 1000 < 60 := by
    rw [fdiv_1000]; omega
  have c2 : ¬ Int.fdiv (Int.fdiv (nowMs - dateMs) 1000) 60 < 60 := by
    rw [fdiv_1000, e2]; omega
  have c3 : Int.fdiv (Int.fdiv (Int.fdiv (nowMs - dateMs) 1000) 60) 60 < 24 := by
    rw [fdiv_1000, e2, e3]; omega
  simp only [formatRelativeTime]
  rw [if_neg c1, if_neg c2, if_pos c3, fdiv_1000, e2, e3]
  rfl

theorem formatRelativeTime_days (f : Int → Int → String)
    {nowMs dateMs : Int} (h0 : 86400000 ≤ nowMs - dateMs)
    (h1 : nowMs - dateMs < 604800000) :
    formatRelativeTime f nowMs dateMs =
      toString ((nowMs - dateMs) / 86400000) ++ "d ago" := by
  have e2 : Int.fdiv ((nowMs - dateMs) / 1000) 60 = (nowMs - dateMs) / 60000 := by
    rw [fdiv_60]; omega
  have e3 : Int.fdiv ((nowMs - dateMs) / 60000) 60 = (nowMs - dateMs) / 3600000 := by
    rw [fdiv_60]; omega
  have e4 : Int.fdiv ((nowMs - dateMs) / 3600000) 24 = (nowMs - dateMs) / 86400000 := by
    rw [fdiv_24]; omega
  have c1 : ¬ Int.fdiv (nowMs - dateMs) 1000 < 60 := by
    rw [fdiv_1000]; omega
  have c2 : ¬ Int.fdiv (Int.fdiv (nowMs - dateMs) 1000) 60 < 60 := by
    rw [fdiv_1000, e2]; omega
  have c3 : ¬ Int.fdiv (Int.fdiv (Int.fdiv (nowMs - dateMs) 1000) 60) 60 < 24 := by
    rw [fdiv_1000, e2, e3]; omega
  have c4 :
      Int.fdiv (Int.fdiv (Int.fdiv (Int.fdiv (nowMs - dateMs) 1000) 60) 60) 24 < 7 := by
    rw [fdiv_1000, e2, e3, e4]; omega
  simp only [formatRelativeTime]
  rw [if_neg c1, if_neg c2, if_neg c3, if_pos c4, fdiv_1000, e2, e3, e4]
  rfl

theorem formatRelativeTime_weeks (f : Int → Int → String)
    {nowMs dateMs : Int} (h0 : 604800000 ≤ nowMs - dateMs)
    (h1 : nowMs - dateMs < 2592000000) :
    formatRelativeTime f nowMs dateMs =
      toString ((nowMs - dateMs) / 86400000 / 7) ++ "w ago" := by
  have e2 : Int.fdiv ((nowMs - dateMs) / 1000) 60 = (nowMs - dateMs) / 60000 := by
    rw [fdiv_60]; omega
  have e3 : Int.fdiv ((nowMs - dateMs) / 60000) 60 = (nowMs - dateMs) / 3600000 := by
    rw [fdiv_60]; omega
  have e4 : Int.fdiv ((nowMs - dateMs) / 3600000) 24 = (nowMs - dateMs) / 86400000 := by
    rw [fdiv_24]; omega
  have c1 : ¬ Int.fdiv (nowMs - dateMs) 1000 < 60 := by
    rw [fdiv_1000]; omega
  have c2 : ¬ Int.fdiv (Int.fdiv (nowMs - dateMs) 1000) 60 < 60 := by
    rw [fdiv_1000, e2]; omega
  have c3 : ¬ Int.fdiv (Int.fdiv (Int.fdiv (nowMs - dateMs) 1000) 60) 60 < 24 := by
    rw [fdiv_1000, e2, e3]; omega
  have c4 :
      ¬ Int.fdiv (Int.fdiv (Int.fdiv (Int.fdiv (nowMs - dateMs) 1000) 60) 60) 24 < 7 := by
    rw [fdiv_1000, e2, e3, e4]; omega
  have c5 :
      Int.fdiv (Int.fdiv (Int.fdiv (Int.fdiv (nowMs - dateMs) 1000) 60) 60) 24 < 30 := by
    rw [fdiv_1000, e2, e3, e4]; omega
  simp only [formatRelativeTime]
  rw [if_neg c1, if_neg c2, if_neg c3, if_neg c4, if_pos c5,
    fdiv_1000, e2, e3, e4, fdiv_7]
  rfl

/-- Inversion: a successful `getRecentFiles` call determines successful
collection and record listings and the shape of the result. -/
theorem getRecentFiles_ok {src : Source} {maxFiles : Int}
    {files : List FileEntry}
    (h : getRecentFiles src maxFiles = .ok files) :
    ∃ cols all, src.collections = .ok cols ∧ gatherFiles cols = .ok all ∧
      files = jsSlice0 maxFiles (sortDesc all) := by
  unfold getRecentFiles at h
  split at h
  · exact absurd h (by simp)
  next cols hc =>
    split at h
    · exact absurd h (by simp)
    next all hg =>
      refine ⟨cols, all, hc, hg, ?_⟩
      cases h
      rfl

/-- Computation: on successful listings, `getRecentFiles` returns the
sorted, sliced gathered list. -/
theorem getRecentFiles_eq {src : Source} {cols : List Collection}
    {all : List FileEntry} (hc : src.collections = .ok cols)
    (hg : gatherFiles cols = .ok all) (maxFiles : Int) :
    getRecentFiles src maxFiles = .ok (jsSlice0 maxFiles (sortDesc all)) := by
  unfold getRecentFiles
  split
  next e he => rw [hc] at he; cases he
  next cols' hc' =>
    rw [hc] at hc'
    cases hc'
    split
    next e he => rw [hg] at he; cases he
    next all' hg' => rw [hg] at hg'; cases hg'; rfl

/-! ### Concrete test data -/

/-- A collection holding one document `g` (title `g`) modified at `t`. -/
def oneDoc (cn g : String) (t : Int) : Collection :=
  { name := cn, icon := none
    records := .ok [{ guid := g, name := g, updatedAt := some t }] }

/-- The summary produced for a document of `oneDoc cn g t`. -/
def entryOf (cn g : String) (t : Int) : FileEntry :=
  { recordGuid := g, collectionName := cn, collectionIcon := none
    title := g, updatedAt := t }

/-- Three collections, each with one document, all modified at `1000`. -/
def tieCols : List Collection :=
  [oneDoc "C1" "a" 1000, oneDoc "C2" "b" 1000, oneDoc "C3" "c" 1000]

/-- A source whose three documents share one `modifiedAt`. -/
def tieSource : Source := { collections := .ok tieCols }

/-- Two documents with distinct timestamps, newest first after sorting. -/
def negSliceCols : List Collection :=
  [oneDoc "A" "n1" 200, oneDoc "A2" "n2" 100]

def negSliceSource : Source := { collections := .ok negSliceCols }

/-- A second two-document source, for the negative-`maxFiles` behavior. -/
def negSliceCols2 : List Collection :=
  [oneDoc "B" "m1" 20, oneDoc "B2" "m2" 10]

def negSliceSource2 : Source := { collections := .ok negSliceCols2 }

/-- One collection holding a document without `updated_at` and one with. -/
def mixedCol : Collection :=
  { name := "M", icon := none
    records := .ok [
      { guid := "x", name := "X", updatedAt := none },
      { guid := "y", name := "Y", updatedAt := some 7 }] }

def mixedSource : Source := { collections := .ok [mixedCol] }

/-- The summary of the only ranked document of `mixedSource`. -/
def yEntry : FileEntry :=
  { recordGuid := "y", collectionName := "M", collectionIcon := none
    title := "Y", updatedAt := 7 }

/-! ### Claims -/

/-- C1: for every source of collections and every `maxItems`, the sequence
returned by `collect(maxItems)` is sorted by `modifiedAt` in non-increasing
order (`Pairwise` covers every pair, in particular every adjacent pair). -/
theorem collect_sorted (src : Source) (maxFiles : Int)
    (files : List FileEntry)
    (h : getRecentFiles src maxFiles = .ok files) :
    files.Pairwise (fun x y => y.updatedAt ≤ x.updatedAt) := by
  rcases getRecentFiles_ok h with ⟨cols, all, hc, hg, hfl⟩
  rcases jsSlice0_eq_take maxFiles (sortDesc all) with ⟨k, hk⟩
  rw [hfl, hk]
  exact (sortDesc_pairwise all).sublist (List.take_sublist k _)

theorem collect_sorted_witness :
    ([entryOf "C1" "a" 1000, entryOf "C2" "b" 1000] : List FileEntry).Pairwise
      (fun x y => y.updatedAt ≤ x.updatedAt) :=
  collect_sorted tieSource 2
    [entryOf "C1" "a" 1000, entryOf "C2" "b" 1000] (by rfl)

/-- C2: ties are broken stably: restricted to any fixed timestamp `t`, the
`collect` result is an initial segment of the discovery-order list (the
collection iteration order, then the in-collection order); in particular,
for three documents sharing one `modifiedAt` discovered in collections
`C1, C2, C3`, `collect(2)` returns exactly the `C1` and `C2` items, in
that order. -/
theorem collect_stable (src : Source) (maxFiles : Int)
    (cols : List Collection) (allFiles files : List FileEntry) (t : Int)
    (hc : src.collections = .ok cols)
    (hg : gatherFiles cols = .ok allFiles)
    (hok : getRecentFiles src maxFiles = .ok files) :
    (∃ s, files.filter (fun x => x.updatedAt == t) ++ s
        = allFiles.filter (fun x => x.updatedAt == t)) ∧
    getRecentFiles tieSource 2 =
      .ok [entryOf "C1" "a" 1000, entryOf "C2" "b" 1000] := by
  constructor
  · rcases getRecentFiles_ok hok with ⟨cols', all', hc', hg', hfl⟩
    rw [hc] at hc'
    cases hc'
    rw [hg] at hg'
    cases hg'
    rcases jsSlice0_eq_take maxFiles (sortDesc allFiles) with ⟨k, hk⟩
    rw [hfl, hk]
    rcases exists_filter_take k (sortDesc allFiles)
      (fun x => x.updatedAt == t) with ⟨s, hs⟩
    exact ⟨s, by rw [hs, filter_sortDesc]⟩
  · rfl

theorem collect_stable_witness :
    (∃ s,
      ([entryOf "C1" "a" 1000, entryOf "C2" "b" 1000].filter
          (fun x => x.updatedAt == 1000)) ++ s
        = ([entryOf "C1" "a" 1000, entryOf "C2" "b" 1000,
            entryOf "C3" "c" 1000].filter (fun x => x.updatedAt == 1000))) ∧
    getRecentFiles tieSource 2 =
      .ok [entryOf "C1" "a" 1000, entryOf "C2" "b" 1000] :=
  collect_stable tieSource 2 tieCols
    [entryOf "C1" "a" 1000, entryOf "C2" "b" 1000, entryOf "C3" "c" 1000]
    [entryOf "C1" "a" 1000, entryOf "C2" "b" 1000] 1000 rfl rfl rfl

/-- C3 fails as stated: with two ranked documents, `collect(-1)` returns a
sequence of length `1`, and `1 ≤ -1` is false (a JavaScript
`slice(0, -1)` counts from the end instead of returning nothing). -/
theorem collect_length_counterexample :
    getRecentFiles negSliceSource (-1) = .ok [entryOf "A" "n1" 200] ∧
    ¬ ((([entryOf "A" "n1" 200] : List FileEntry).length : Int) ≤ -1) :=
  ⟨rfl, by decide⟩

/-- C3 amended: for every non-negative `n` the result of `collect(n)` has
length ≤ `n`; for every `n` (negative included) its length is ≤ the number
of documents across all collections that have a defined `modifiedAt`. -/
theorem collect_length_bounds (src : Source) (maxFiles : Int)
    (cols : List Collection) (files : List FileEntry)
    (hc : src.collections = .ok cols)
    (hok : getRecentFiles src maxFiles = .ok files) :
    (0 ≤ maxFiles → (files.length : Int) ≤ maxFiles) ∧
    files.length ≤ rankedCount cols := by
  rcases getRecentFiles_ok hok with ⟨cols', all, hc', hg, hfl⟩
  rw [hc] at hc'
  cases hc'
  constructor
  · intro hn
    rw [hfl]
    unfold jsSlice0
    rw [if_neg (by omega)]
    have hle : (List.take maxFiles.toNat (sortDesc all)).length
        ≤ maxFiles.toNat := by
      simp [List.length_take]
    omega
  · rw [hfl]
    rcases jsSlice0_eq_take maxFiles (sortDesc all) with ⟨k, hk⟩
    rw [hk]
    calc (List.take k (sortDesc all)).length ≤ (sortDesc all).length :=
          (List.take_sublist k _).length_le
      _ = all.length := length_sortDesc all
      _ = rankedCount cols := gatherFiles_length hg

theorem collect_length_bounds_witness :
    ((0 : Int) ≤ 1 →
      ((([entryOf "A" "n1" 200] : List FileEntry)).length : Int) ≤ 1) ∧
    ([entryOf "A" "n1" 200] : List FileEntry).length
        ≤ rankedCount negSliceCols :=
  collect_length_bounds negSliceSource 1 negSliceCols
    [entryOf "A" "n1" 200] rfl rfl

/-- C4 fails as stated for negative bounds: with two ranked documents,
`collect(-1)` returns a one-element sequence, not the empty one
(JavaScript `slice(0, -1)` counts from the end). -/
theorem collect_negative_counterexample :
    getRecentFiles negSliceSource2 (-1) = .ok [entryOf "B" "m1" 20] ∧
    (Except.ok [entryOf "B" "m1" 20] : Except String (List FileEntry))
      ≠ .ok [] :=
  ⟨rfl, by simp [entryOf]⟩

/-- C4 amended: `collect(0)` returns the empty sequence without error; for
every negative `m`, `collect(m)` returns — without error — the sorted
ranked sequence with its last `|m|` elements dropped (so the empty
sequence exactly when `|m|` is at least the number of ranked documents),
mirroring JavaScript `slice(0, m)` for negative `m`. -/
theorem collect_zero_and_negative (src : Source) (m : Int)
    (cols : List Collection) (allFiles : List FileEntry)
    (hc : src.collections = .ok cols)
    (hg : gatherFiles cols = .ok allFiles)
    (hm : m < 0) :
    getRecentFiles src 0 = .ok [] ∧
    getRecentFiles src m =
      .ok ((sortDesc allFiles).take (allFiles.length - m.natAbs)) := by
  constructor
  · rw [getRecentFiles_eq hc hg 0]
    rfl
  · rw [getRecentFiles_eq hc hg m]
    unfold jsSlice0
    rw [if_pos hm, length_sortDesc]

theorem collect_zero_and_negative_witness :
    getRecentFiles negSliceSource2 0 = .ok [] ∧
    getRecentFiles negSliceSource2 (-1) =
      .ok ((sortDesc [entryOf "B" "m1" 20, entryOf "B2" "m2" 10]).take
        ([entryOf "B" "m1" 20, entryOf "B2" "m2" 10].length
          - (-1 : Int).natAbs)) :=
  collect_zero_and_negative negSliceSource2 (-1) negSliceCols2
    [entryOf "B" "m1" 20, entryOf "B2" "m2" 10] rfl rfl (by decide)

/-- C5: every item of a `collect` result originates from a document whose
`modifiedAt` is defined (and carries its guid, title and timestamp), so a
document with no `modifiedAt` never contributes an item, whatever
`maxItems` is. -/
theorem collect_only_ranked (src : Source) (maxFiles : Int)
    (files : List FileEntry) (f : FileEntry)
    (hok : getRecentFiles src maxFiles = .ok files) (hf : f ∈ files) :
    ∃ cols, src.collections = .ok cols ∧ ∃ c ∈ cols, ∃ rs,
      c.records = .ok rs ∧ ∃ r ∈ rs, r.updatedAt = some f.updatedAt ∧
        r.guid = f.recordGuid ∧ r.name = f.title := by
  rcases getRecentFiles_ok hok with ⟨cols, all, hc, hg, hfl⟩
  rcases jsSlice0_eq_take maxFiles (sortDesc all) with ⟨k, hk⟩
  rw [hfl, hk] at hf
  have hf3 : f ∈ all := mem_sortDesc.mp (List.take_subset k _ hf)
  exact ⟨cols, hc, mem_gatherFiles hg hf3⟩

theorem collect_only_ranked_witness :
    ∃ cols, mixedSource.collections = .ok cols ∧ ∃ c ∈ cols, ∃ rs,
      c.records = .ok rs ∧ ∃ r ∈ rs, r.updatedAt = some yEntry.updatedAt ∧
        r.guid = yEntry.recordGuid ∧ r.name = yEntry.title :=
  collect_only_ranked mixedSource 10 [yEntry] yEntry rfl (by decide)

/-- C6: for non-negative Δ = now − timestamp, the formatter follows the
boundary table with truncating (floor) integer division: Δ < 60s gives
`just now`; 60s ≤ Δ < 60min gives `(Δ in minutes)m ago`; up to 24h, hours;
up to 7d, days; up to 30d, `(days ÷ 7)w ago`; and the table's sample
points evaluate as listed (Δ of 59s, 60s, 3599s, 3600s, 7 days, 29 days;
the last two written in milliseconds). -/
theorem formatRelativeTime_boundaries (f : Int → Int → String)
    (nowMs dateMs : Int) (_h : 0 ≤ nowMs - dateMs) :
    (nowMs - dateMs < 60000 →
      formatRelativeTime f nowMs dateMs = "just now") ∧
    (60000 ≤ nowMs - dateMs → nowMs - dateMs < 3600000 →
      formatRelativeTime f nowMs dateMs =
        toString ((nowMs - dateMs) / 60000) ++ "m ago") ∧
    (3600000 ≤ nowMs - dateMs → nowMs - dateMs < 86400000 →
      formatRelativeTime f nowMs dateMs =
        toString ((nowMs - dateMs) / 3600000) ++ "h ago") ∧
    (86400000 ≤ nowMs - dateMs → nowMs - dateMs < 604800000 →
      formatRelativeTime f nowMs dateMs =
        toString ((nowMs - dateMs) / 86400000) ++ "d ago") ∧
    (604800000 ≤ nowMs - dateMs → nowMs - dateMs < 2592000000 →
      formatRelativeTime f nowMs dateMs =
        toString ((nowMs - dateMs) / 86400000 / 7) ++ "w ago") ∧
    formatRelativeTime f 59000 0 = "just now" ∧
    formatRelativeTime f 60000 0 = "1m ago" ∧
    formatRelativeTime f 3599000 0 = "59m ago" ∧
    formatRelativeTime f 3600000 0 = "1h ago" ∧
    formatRelativeTime f 604800000 0 = "1w ago" ∧
    formatRelativeTime f 2505600000 0 = "4w ago" :=
  ⟨fun h1 => formatRelativeTime_justNow f h1,
   fun h1 h2 => formatRelativeTime_minutes f h1 h2,
   fun h1 h2 => formatRelativeTime_hours f h1 h2,
   fun h1 h2 => formatRelativeTime_days f h1 h2,
   fun h1 h2 => formatRelativeTime_weeks f h1 h2,
   rfl, rfl, rfl, rfl, rfl, rfl⟩

theorem formatRelativeTime_boundaries_witness :
    formatRelativeTime (fun _ _ => "") 120000 0 = "2m ago" := by
  have h := (formatRelativeTime_boundaries (fun _ _ => "") 120000 0
    (by decide)).2.1 (by decide) (by decide)
  rw [h]
  rfl

/-- C7: the formatter is total — it is a function returning a label for
every pair of instants, with no error path — and a timestamp strictly in
the future of `now` (negative Δ) yields `just now`. -/
theorem formatRelativeTime_total (f : Int → Int → String)
    (nowMs dateMs : Int) :
    (∃ out, formatRelativeTime f nowMs dateMs = out) ∧
    (nowMs - dateMs < 0 →
      formatRelativeTime f nowMs dateMs = "just now") :=
  ⟨⟨_, rfl⟩, fun h => formatRelativeTime_justNow f (by omega)⟩

theorem formatRelativeTime_total_witness :
    formatRelativeTime (fun _ _ => "") 0 500 = "just now" :=
  (formatRelativeTime_total (fun _ _ => "") 0 500).2 (by decide)

/-- A source whose collection listing itself fails. -/
def failingSource : Source := { collections := .error "boom" }

/-- C8: if listing the collections, or listing the documents of any
collection, fails, then `collect` propagates a single failure to the
caller and returns no result — in particular never a partial list. -/
theorem collect_propagates_failure (src : Source) (maxFiles : Int)
    (h : (∃ e, src.collections = .error e) ∨
      (∃ cols, src.collections = .ok cols ∧
        ∃ c ∈ cols, ∃ e, c.records = .error e)) :
    ∃ e, getRecentFiles src maxFiles = .error e ∧
      ∀ files, getRecentFiles src maxFiles ≠ .ok files := by
  rcases h with ⟨e, he⟩ | ⟨cols, hc, c, hcm, e, he⟩
  · refine ⟨e, ?_, ?_⟩
    · unfold getRecentFiles
      rw [he]
    · intro files hfiles
      unfold getRecentFiles at hfiles
      rw [he] at hfiles
      cases hfiles
  · rcases gatherFiles_error hcm he with ⟨e', hg⟩
    refine ⟨e', ?_, ?_⟩
    · unfold getRecentFiles
      rw [hc]
      simp only []
      rw [hg]
    · intro files hfiles
      rcases getRecentFiles_ok hfiles with ⟨cols', all, hc', hg', _⟩
      rw [hc] at hc'
      cases hc'
      rw [hg] at hg'
      cases hg'

theorem collect_propagates_failure_witness :
    ∃ e, getRecentFiles failingSource 5 = .error e ∧
      ∀ files, getRecentFiles failingSource 5 ≠ .ok files :=
  collect_propagates_failure failingSource 5 (Or.inl ⟨"boom", rfl⟩)

/-- A file entry with an empty title and no collection icon. -/
def plainEntry : FileEntry :=
  { recordGuid := "g", collectionName := "A", collectionIcon := none
    title := "", updatedAt := 0 }

/-- C9: with `showCollection = false`, no rendered item carries a
collection label (the collection span of src/plugin.js lines 140-149 is
only added when `showCollection` holds). -/
theorem present_no_collection_label (f : Int → Int → String) (nowMs : Int)
    (files : List FileEntry) (v : ViewItem)
    (hv : v ∈ present f nowMs false files) :
    v.collectionLabel = none := by
  rcases List.mem_map.mp hv with ⟨x, _, hxv⟩
  rw [← hxv]
  rfl

theorem present_no_collection_label_witness :
    ({ iconId := "ti-file", title := "Untitled", collectionLabel := none,
       ageLabel := "just now" } : ViewItem).collectionLabel = none :=
  present_no_collection_label (fun _ _ => "") 0 [plainEntry] _ (by decide)

/-- A source with a single ranked document, for the default-bound claim. -/
def oneDocSource : Source := { collections := .ok [oneDoc "D" "d1" 42] }

/-- C10: a configured `maxFiles` of `0` — or a missing/null one — makes
the modal call the aggregator with the default bound `15`
(`config.custom?.maxFiles || 15`), so up to `15` items are returned
(`min 15 count`, hence not none when any ranked document exists). -/
theorem modal_default_bound (sc : Option Bool) (src : Source)
    (cols : List Collection) (allFiles : List FileEntry)
    (hc : src.collections = .ok cols)
    (hg : gatherFiles cols = .ok allFiles) :
    effectiveMaxFiles
        { custom := some { maxFiles := some 0, showCollection := sc } }
      = 15 ∧
    effectiveMaxFiles
        { custom := some { maxFiles := none, showCollection := sc } }
      = 15 ∧
    effectiveMaxFiles { custom := none } = 15 ∧
    ∃ files,
      getRecentFiles src
          (effectiveMaxFiles
            { custom := some { maxFiles := some 0, showCollection := sc } })
        = .ok files ∧
      files.length = min 15 (rankedCount cols) := by
  refine ⟨rfl, rfl, rfl, ?_⟩
  have h15 : effectiveMaxFiles
      { custom := some { maxFiles := some 0, showCollection := sc } }
    = 15 := rfl
  rw [h15, getRecentFiles_eq hc hg 15]
  refine ⟨_, rfl, ?_⟩
  unfold jsSlice0
  rw [if_neg (by omega)]
  rw [List.length_take, length_sortDesc, gatherFiles_length hg]
  rfl

theorem modal_default_bound_witness :
    effectiveMaxFiles
        { custom := some { maxFiles := some 0, showCollection := none } }
      = 15 ∧
    effectiveMaxFiles
        { custom := some { maxFiles := none, showCollection := none } }
      = 15 ∧
    effectiveMaxFiles { custom := none } = 15 ∧
    ∃ files,
      getRecentFiles oneDocSource
          (effectiveMaxFiles
            { custom := some { maxFiles := some 0, showCollection := none } })
        = .ok files ∧
      files.length = min 15 (rankedCount [oneDoc "D" "d1" 42]) :=
  modal_default_bound none oneDocSource [oneDoc "D" "d1" 42]
    [entryOf "D" "d1" 42] rfl rfl

end RecentFiles
